import Mathlib

/-!
Shallow embedding of the cost & usage aggregation engine of the
my-aws-cost-explorer MCP server (src/server.py), together with proofs
about its normalizer, credential resolver, aggregator and billing
breakdown engine.

Modelling conventions:
  - Python strings are Lean `String`s; where character-level splitting is
    needed (model-id shortening) we work on `List Char` (`String.data`).
  - Python `float` cost amounts are modelled as exact rationals `ℚ`.
  - Token counts are modelled as `Nat` (they are non-negative counts in the
    Bedrock invocation logs).
  - A Python function that can raise is modelled as returning `Except`;
    `Except.error` marks an exception propagating out of the modelled scope.
  - Printing to stdout is not part of any returned value and is modelled
    separately (`fetchDiagnostic`) where a claim mentions diagnostics.
-/

namespace AwsCostExplorer

/-! ### Usage log normalizer (src/server.py, get_bedrock_logs)

A raw CloudWatch event's parsed JSON message.  For the token counts the
distinction between an absent key and a key bound to JSON null matters:
`message.get("input", {}).get("inputTokenCount")` yields None for both, but
`message.get("input", {}).get("inputTokenCount", 0)` (used in the
`totalTokens` sum) yields 0 for an absent key and None for a null value,
and `None + 0` raises TypeError.  The nesting of the `input`/`output`
sections is flattened here: an absent section behaves exactly like an
absent token key (both chains go through `{}` / default lookups). -/
inductive TokenField where
  | absent
  | null
  | num (n : Nat)
deriving DecidableEq

/-- Value of `message.get(...)...get(key)`: None for absent or null. -/
def tokenOpt : TokenField → Option Nat
  | .absent => none
  | .null => none
  | .num n => some n

/-- Value of `message.get(...)...get(key, 0)` as used in the totalTokens
sum; the `.null` case raises TypeError in Python and is excluded before
this function is applied (see `processEvent`). -/
def tokenGetD : TokenField → Nat
  | .absent => 0
  | .null => 0
  | .num n => n

/-- Parsed JSON body of one log event.  String-valued fields collapse
absent and null to `none`, matching `message.get("timestamp")` etc. -/
structure LogMessage where
  timestamp : Option String
  region : Option String
  modelId : Option String
  userArn : Option String
  inputTokenCount : TokenField
  outputTokenCount : TokenField
deriving DecidableEq

/-- One event from `filter_log_events` pagination.
  - `malformed`: `json.loads` raises JSONDecodeError, or the event lacks
    the "message" key (KeyError) — both are caught and the event skipped;
  - `nonObject`: the message parses as JSON but is not an object, so
    `message.get` raises AttributeError, which is NOT caught by the
    per-event handlers and escapes to the outer handler;
  - `msg m`: a JSON object with the fields of interest. -/
inductive RawEvent where
  | malformed
  | nonObject
  | msg (m : LogMessage)
deriving DecidableEq

/-- One normalized usage record (one row of the returned DataFrame). -/
structure UsageRecord where
  timestamp : Option String
  region : Option String
  modelId : Option String
  userId : Option String
  inputTokens : Option Nat
  completionTokens : Option Nat
  totalTokens : Nat
deriving DecidableEq

/-- The `filtered_event` dict built for one parsed message (src/server.py
lines 213-226): every field is looked up with a null-tolerant `.get`, and
`totalTokens` sums the two token counts with default 0 for absent keys. -/
def mkRecord (m : LogMessage) : UsageRecord :=
  { timestamp := m.timestamp
    region := m.region
    modelId := m.modelId
    userId := m.userArn
    inputTokens := tokenOpt m.inputTokenCount
    completionTokens := tokenOpt m.outputTokenCount
    totalTokens := tokenGetD m.inputTokenCount + tokenGetD m.outputTokenCount }

/-- Outcome of processing one event inside the pagination loop. -/
inductive EventOutcome where
  | record (r : UsageRecord)
  | skipped
  | fatal
deriving DecidableEq

/-- Per-event processing: malformed events are skipped by the
JSONDecodeError/KeyError handlers; a non-object message, or a token count
bound to JSON null (TypeError in the `totalTokens` addition), raises past
the per-event handlers. -/
def processEvent : RawEvent → EventOutcome
  | .malformed => .skipped
  | .nonObject => .fatal
  | .msg m =>
    if m.inputTokenCount = TokenField.null ∨ m.outputTokenCount = TokenField.null then
      .fatal
    else
      .record (mkRecord m)

/-- The pagination loop accumulating `filtered_logs`.  A fatal event makes
the whole fetch take the outer `except Exception` branch, which returns
None and discards everything accumulated so far. -/
def collectRecords : List RawEvent → Option (List UsageRecord)
  | [] => some []
  | e :: es =>
    match processEvent e with
    | .fatal => none
    | .skipped => collectRecords es
    | .record r => (collectRecords es).map (fun rs => r :: rs)

/-- Outcome of the log-provider call (`filter_log_events` pagination):
either the pages' events, a ResourceNotFoundException (missing log
group/stream), or any other exception with its message. -/
inductive ProviderResult where
  | ok (events : List RawEvent)
  | notFound
  | transportError (e : String)
deriving DecidableEq

/-- Return value of get_bedrock_logs: None for not-found, None for any
other exception (both caught), None when no records survive normalization,
otherwise the DataFrame rows. -/
def getBedrockLogs : ProviderResult → Option (List UsageRecord)
  | .notFound => none
  | .transportError _ => none
  | .ok events =>
    match collectRecords events with
    | none => none
    | some [] => none
    | some (r :: rs) => some (r :: rs)

/-- Diagnostic line printed by get_bedrock_logs in its exception handlers
(stdout only; never part of the returned value). -/
def fetchDiagnostic (logGroupName : String) : ProviderResult → Option String
  | .ok _ => none
  | .notFound =>
    some ("Log group '" ++ logGroupName ++ "' or stream 'aws/bedrock/modelinvocations' not found")
  | .transportError e => some ("Error retrieving logs: " ++ e)

/-! ### Credential resolver (src/server.py, get_aws_service_boto3_client) -/

/-- The constructed boto3 client: either built directly with the ambient
identity, or built from credentials obtained by assuming the given role. -/
inductive ClientSpec where
  | direct (service region : String)
  | assumed (service roleArn region : String)
deriving DecidableEq

/-- Credential resolution on the path where the caller-identity lookup
succeeded and returned account `thisAccount`.  The source guards the
cross-account branch with `aws_account_id is not None and this_account !=
aws_account_id`; note that an empty string is `not None`. -/
def getAwsServiceBoto3Client (service : String) (awsAccountId : Option String)
    (regionName : String) (accountBRoleName : String) (thisAccount : String) : ClientSpec :=
  match awsAccountId with
  | some acct =>
    if thisAccount ≠ acct then
      .assumed service ("arn:aws:iam::" ++ acct ++ ":role/" ++ accountBRoleName) regionName
    else
      .direct service regionName
  | none => .direct service regionName

/-! ### Multi-dimensional aggregator (pandas groupby over the DataFrame)

`df.groupby(keys)` with the default `dropna=True` excludes every row whose
key contains a missing value; a grouping key is therefore an
`Option`-valued function, and a row with key `none` belongs to no group. -/

/-- Calendar date derived by `df['timestamp'].dt.date` from an ISO-8601
timestamp string: its 10-character date prefix. -/
def dateOf (ts : String) : String := String.mk (ts.data.take 10)

/-- Hour bucket derived by `df['timestamp'].dt.strftime('%Y-%m-%d %H:00')`. -/
def hourBucketOf (ts : String) : String :=
  String.mk (ts.data.take 10) ++ " " ++ String.mk ((ts.data.drop 11).take 2) ++ ":00"

/-- Group key of `df.groupby(['date', 'region', 'modelId'])`; `none` when
any of the three components is missing (pandas drops such rows). -/
def keyDateRegionModel (r : UsageRecord) : Option (String × String × String) :=
  match r.timestamp, r.region, r.modelId with
  | some t, some g, some m => some (dateOf t, g, m)
  | _, _, _ => none

/-- Group key of `df.groupby('region')`. -/
def keyRegion (r : UsageRecord) : Option String := r.region

/-- Group key of `df.groupby('modelId')`. -/
def keyModel (r : UsageRecord) : Option String := r.modelId

/-- Group key of `df.groupby('userId')`. -/
def keyUser (r : UsageRecord) : Option String := r.userId

/-- Group key of `df.groupby(['datetime', 'region', 'modelId'])` in the
hourly statistics. -/
def keyHourRegionModel (r : UsageRecord) : Option (String × String × String) :=
  match r.timestamp, r.region, r.modelId with
  | some t, some g, some m => some (hourBucketOf t, g, m)
  | _, _, _ => none

/-- Group key of `df.groupby('datetime')` in the hourly statistics. -/
def keyHour (r : UsageRecord) : Option String := r.timestamp.map hourBucketOf

/-- The distinct group keys of a record list under a grouping function. -/
def keysOf {κ : Type} [DecidableEq κ] (f : UsageRecord → Option κ) (l : List UsageRecord) : List κ :=
  (l.filterMap f).dedup

/-- Sum of `g` over the records of the group with key `k` (one aggregated
cell, e.g. the `totalTokens` `sum` column of one group row). -/
def fiberSum {κ : Type} [DecidableEq κ] (g : UsageRecord → Nat) (f : UsageRecord → Option κ)
    (k : κ) : List UsageRecord → Nat
  | [] => 0
  | r :: rs => (if f r = some k then g r else 0) + fiberSum g f k rs

/-- The `count` aggregate pandas computes on the `inputTokens` column
(reported as request_count): it counts non-null entries only. -/
def fiberCount {κ : Type} [DecidableEq κ] (f : UsageRecord → Option κ)
    (k : κ) : List UsageRecord → Nat
  | [] => 0
  | r :: rs =>
    (if f r = some k ∧ r.inputTokens.isSome then 1 else 0) + fiberCount f k rs

/-- Sum of the `totalTokens` `sum` column over all groups of a grouping. -/
def totalOverGroups {κ : Type} [DecidableEq κ] (f : UsageRecord → Option κ)
    (l : List UsageRecord) : Nat :=
  ((keysOf f l).map (fun k => fiberSum (fun r => r.totalTokens) f k l)).sum

/-! Partition lemmas: over a key list that is duplicate-free and covers
every record's key, the groupwise sums add up to the plain sum. -/

lemma sum_map_ite_eq_single {κ : Type} [DecidableEq κ] (a : Nat) (k₀ : κ) :
    ∀ (K : List κ), K.Nodup → k₀ ∈ K →
      (K.map (fun k => if k₀ = k then a else 0)).sum = a := by
  intro K
  induction K with
  | nil => intro _ h; cases h
  | cons k K ih =>
    intro hnd hmem
    rcases List.nodup_cons.mp hnd with ⟨hkK, hK⟩
    rcases List.mem_cons.mp hmem with h | h
    · subst h
      have hzero : (K.map (fun k => if k₀ = k then a else 0)).sum = 0 := by
        apply List.sum_eq_zero
        intro x hx
        rcases List.mem_map.mp hx with ⟨k', hk', hval⟩
        have hne : k₀ ≠ k' := fun he => hkK (he ▸ hk')
        simpa [if_neg hne] using hval.symm
      simp [hzero]
    · have hne : k₀ ≠ k := fun he => hkK (he ▸ h)
      simp only [List.map_cons, List.sum_cons, if_neg hne, Nat.zero_add]
      exact ih hK h

lemma sum_map_add_nat {κ : Type} (g h : κ → Nat) :
    ∀ (K : List κ), (K.map (fun k => g k + h k)).sum = (K.map g).sum + (K.map h).sum := by
  intro K
  induction K with
  | nil => simp
  | cons k K ih => simp [ih]; omega

lemma sum_fibers {κ : Type} [DecidableEq κ] (g : UsageRecord → Nat)
    (f : UsageRecord → Option κ) (K : List κ) (hK : K.Nodup) :
    ∀ (l : List UsageRecord), (∀ r ∈ l, ∃ k, f r = some k ∧ k ∈ K) →
      (K.map (fun k => fiberSum g f k l)).sum = (l.map g).sum := by
  intro l
  induction l with
  | nil =>
    intro _
    have : (K.map (fun k => fiberSum g f k ([] : List UsageRecord))) = K.map (fun _ => 0) := by
      simp [fiberSum]
    rw [this]
    simp [List.sum_eq_zero]
  | cons r l ih =>
    intro hcov
    have hcov' : ∀ r' ∈ l, ∃ k, f r' = some k ∧ k ∈ K := fun r' hr' =>
      hcov r' (List.mem_cons_of_mem _ hr')
    rcases hcov r (List.mem_cons_self _ _) with ⟨k₀, hfk₀, hk₀K⟩
    have hfun : (fun k => fiberSum g f k (r :: l)) =
        (fun k => (if k₀ = k then g r else 0) + fiberSum g f k l) := by
      funext k
      simp only [fiberSum, hfk₀, Option.some.injEq]
    rw [hfun, sum_map_add_nat, sum_map_ite_eq_single (g r) k₀ K hK hk₀K, ih hcov', List.map_cons,
      List.sum_cons]

lemma keysOf_nodup {κ : Type} [DecidableEq κ] (f : UsageRecord → Option κ)
    (l : List UsageRecord) : (keysOf f l).Nodup :=
  List.nodup_dedup _

lemma keysOf_cover {κ : Type} [DecidableEq κ] (f : UsageRecord → Option κ)
    (l : List UsageRecord) (h : ∀ r ∈ l, (f r).isSome) :
    ∀ r ∈ l, ∃ k, f r = some k ∧ k ∈ keysOf f l := by
  intro r hr
  rcases Option.isSome_iff_exists.mp (h r hr) with ⟨k, hk⟩
  exact ⟨k, hk, List.mem_dedup.mpr (List.mem_filterMap.mpr ⟨r, hr, hk⟩)⟩

/-- When every record has a defined key, the sum of the groups' totalTokens
sums equals the plain sum of totalTokens over all records. -/
lemma totalOverGroups_eq_sum {κ : Type} [DecidableEq κ] (f : UsageRecord → Option κ)
    (l : List UsageRecord) (h : ∀ r ∈ l, (f r).isSome) :
    totalOverGroups f l = (l.map (fun r => r.totalTokens)).sum :=
  sum_fibers _ f (keysOf f l) (keysOf_nodup f l) l (keysOf_cover f l h)

/-! ### Model-identifier shortening

The display lambda `model.split('.')[-1] if '.' in model else
model.split('/')[-1]` (src/server.py lines 402-404 and five other places),
modelled at character level. -/

/-- Python's `str.split(c)` for a single-character separator. -/
def splitOnChar (c : Char) : List Char → List (List Char)
  | [] => [[]]
  | x :: xs =>
    let r := splitOnChar c xs
    if x = c then [] :: r
    else
      match r with
      | [] => [[x]]
      | y :: ys => (x :: y) :: ys

/-- Python's `s.split(c)[-1]`. -/
def lastOfSplit (c : Char) (s : List Char) : List Char :=
  (splitOnChar c s).getLastD []

/-- The shortening lambda itself. -/
def shortenChars (s : List Char) : List Char :=
  if '.' ∈ s then lastOfSplit '.' s else lastOfSplit '/' s

/-- Shortening applied to a model id string (as in
`model_summary['modelId'].apply(...)`). -/
def shortenModelId (s : String) : String := String.mk (shortenChars s.data)

/-- Specification-side description: the suffix of `s` strictly after the
last occurrence of `c` (all of `s` when `c` does not occur). -/
def suffixAfterLast (c : Char) : List Char → List Char
  | [] => []
  | x :: xs =>
    if c ∈ xs then suffixAfterLast c xs
    else if x = c then xs
    else x :: suffixAfterLast c xs

lemma splitOnChar_ne_nil (c : Char) : ∀ s : List Char, splitOnChar c s ≠ [] := by
  intro s
  cases s with
  | nil => simp [splitOnChar]
  | cons x xs =>
    simp only [splitOnChar]
    split
    · simp
    · cases h : splitOnChar c xs <;> simp

lemma splitOnChar_of_not_mem (c : Char) :
    ∀ s : List Char, c ∉ s → splitOnChar c s = [s] := by
  intro s
  induction s with
  | nil => intro _; rfl
  | cons x xs ih =>
    intro h
    have hx : x ≠ c := fun he => h (by simp [he])
    have hxs : c ∉ xs := fun hm => h (List.mem_cons_of_mem _ hm)
    simp only [splitOnChar, if_neg hx, ih hxs]

lemma suffixAfterLast_of_not_mem (c : Char) :
    ∀ s : List Char, c ∉ s → suffixAfterLast c s = s := by
  intro s
  induction s with
  | nil => intro _; rfl
  | cons x xs ih =>
    intro h
    have hx : x ≠ c := fun he => h (by simp [he])
    have hxs : c ∉ xs := fun hm => h (List.mem_cons_of_mem _ hm)
    simp only [suffixAfterLast, if_neg hxs, if_neg hx, ih hxs]

lemma splitOnChar_length_ge_two (c : Char) :
    ∀ s : List Char, c ∈ s → 2 ≤ (splitOnChar c s).length := by
  intro s
  induction s with
  | nil => intro h; cases h
  | cons x xs ih =>
    intro h
    by_cases hx : x = c
    · simp only [splitOnChar, if_pos hx, List.length_cons]
      have := splitOnChar_ne_nil c xs
      have : 1 ≤ (splitOnChar c xs).length := List.length_pos.mpr this
      omega
    · have hxs : c ∈ xs := by
        rcases List.mem_cons.mp h with h' | h'
        · exact absurd h'.symm hx
        · exact h'
      simp only [splitOnChar, if_neg hx]
      cases hsp : splitOnChar c xs with
      | nil => exact absurd hsp (splitOnChar_ne_nil c xs)
      | cons y ys =>
        have := ih hxs
        rw [hsp] at this
        simpa using this

lemma getLastD_irrel {α : Type} (x : α) (xs : List α) (a b : α) :
    (x :: xs).getLastD a = (x :: xs).getLastD b := by
  rw [List.getLastD_cons, List.getLastD_cons]

/-- The code's `split(c)[-1]` computes exactly the suffix after the last
occurrence of `c`. -/
lemma lastOfSplit_eq_suffixAfterLast (c : Char) :
    ∀ s : List Char, lastOfSplit c s = suffixAfterLast c s := by
  intro s
  induction s with
  | nil => rfl
  | cons x xs ih =>
    by_cases hx : x = c
    · have hL : lastOfSplit c (x :: xs) = lastOfSplit c xs := by
        simp only [lastOfSplit, splitOnChar, if_pos hx]
        rw [List.getLastD_cons]
      rw [hL, ih]
      by_cases hm : c ∈ xs
      · simp [suffixAfterLast, hm]
      · rw [suffixAfterLast_of_not_mem c xs hm]
        simp [suffixAfterLast, hm, hx]
    · cases hsp : splitOnChar c xs with
      | nil => exact absurd hsp (splitOnChar_ne_nil c xs)
      | cons y ys =>
        cases ys with
        | nil =>
          have hm : c ∉ xs := by
            intro hmem
            have h2 := splitOnChar_length_ge_two c xs hmem
            rw [hsp] at h2
            simp at h2
          have hy : y = xs := by
            have h1 := splitOnChar_of_not_mem c xs hm
            rw [hsp] at h1
            simpa using h1
          have hL : lastOfSplit c (x :: xs) = x :: y := by
            simp [lastOfSplit, splitOnChar, if_neg hx, hsp]
          rw [hL, hy]
          rw [show suffixAfterLast c (x :: xs) = x :: suffixAfterLast c xs by
            simp [suffixAfterLast, hm, hx]]
          rw [suffixAfterLast_of_not_mem c xs hm]
        | cons z zs =>
          have hm : c ∈ xs := by
            by_contra hmem
            have h1 := splitOnChar_of_not_mem c xs hmem
            rw [hsp] at h1
            simp at h1
          have hL : lastOfSplit c (x :: xs) = lastOfSplit c xs := by
            simp only [lastOfSplit, splitOnChar, if_neg hx, hsp]
            rw [List.getLastD_cons]
            conv_rhs => rw [List.getLastD_cons]
            exact getLastD_irrel z zs _ _
          rw [hL, ih]
          simp [suffixAfterLast, hm]

/-! ### Report formatting helpers

Tabular rendering (`DataFrame.to_string`, `tabulate`) is abstracted as a
plain concatenation of the aggregated cells; the aggregated quantities
themselves (counts and sums) are computed by the genuine grouping
definitions above.  The mean/max/median columns of the detailed tables are
presentation-only and omitted from the rendered rows. -/

/-- Python's `s * n` string repetition. -/
def pyRepeat (s : String) (n : Nat) : String := String.join (List.replicate n s)

/-- Sum of a record field over a group, with pandas' NaN-skipping `sum`
(missing values contribute 0). -/
def optSum (field : UsageRecord → Option Nat) (r : UsageRecord) : Nat :=
  (field r).getD 0

/-- One rendered row of an aggregated table: key, request_count,
inputTokens_sum, completionTokens_sum, totalTokens_sum. -/
def groupRow {κ : Type} [DecidableEq κ] (showKey : κ → String)
    (f : UsageRecord → Option κ) (l : List UsageRecord) (k : κ) : String :=
  showKey k ++ " " ++ toString (fiberCount f k l) ++ " " ++
    toString (fiberSum (optSum (fun r => r.inputTokens)) f k l) ++ " " ++
    toString (fiberSum (optSum (fun r => r.completionTokens)) f k l) ++ " " ++
    toString (fiberSum (fun r => r.totalTokens) f k l)

/-- A whole aggregated table, one line per group. -/
def groupTable {κ : Type} [DecidableEq κ] (showKey : κ → String)
    (f : UsageRecord → Option κ) (l : List UsageRecord) : List String :=
  (keysOf f l).map (groupRow showKey f l)

def showKey3 (k : String × String × String) : String :=
  k.1 ++ " " ++ k.2.1 ++ " " ++ k.2.2

/-- The detailed (date, region, modelId) table's summary totals
(src/server.py lines 363-371), summed over the flattened detailed table. -/
def summaryTotals (l : List UsageRecord) : List String :=
  ["Total Requests: " ++ toString (((keysOf keyDateRegionModel l).map
      (fun k => fiberCount keyDateRegionModel k l)).sum),
   "Total Input Tokens: " ++ toString (((keysOf keyDateRegionModel l).map
      (fun k => fiberSum (optSum (fun r => r.inputTokens)) keyDateRegionModel k l)).sum),
   "Total Completion Tokens: " ++ toString (((keysOf keyDateRegionModel l).map
      (fun k => fiberSum (optSum (fun r => r.completionTokens)) keyDateRegionModel k l)).sum),
   "Total Tokens: " ++ toString (totalOverGroups keyDateRegionModel l)]

/-- Body of get_bedrock_daily_usage_stats for a non-empty record set. -/
def dailyReport (days : Nat) (region : String) (l : List UsageRecord) : String :=
  String.intercalate "\n"
    (["Bedrock Usage Statistics (Past " ++ toString days ++ " days - " ++ region ++ ")",
      pyRepeat "=" 80,
      "\n=== Daily Region-wise -> Model-wise Analysis ==="]
     ++ groupTable showKey3 keyDateRegionModel l
     ++ ["\n=== Summary Statistics ==="]
     ++ summaryTotals l
     ++ ["\n=== Region Summary ==="]
     ++ groupTable id keyRegion l
     ++ ["\n=== Model Summary ==="]
     ++ groupTable shortenModelId keyModel l
     ++ ["\n=== User Summary ==="]
     ++ groupTable id keyUser l
     ++ ["\n=== Region -> User -> Model Detailed Summary ==="]
     ++ groupTable (fun k => k.1 ++ " " ++ k.2.1 ++ " " ++ shortenModelId k.2.2)
          (fun r => match r.region, r.userId, r.modelId with
                    | some g, some u, some m => some (g, u, m)
                    | _, _, _ => none) l)

/-- Body of get_bedrock_hourly_usage_stats for a non-empty record set. -/
def hourlyReport (days : Nat) (region : String) (l : List UsageRecord) : String :=
  String.intercalate "\n"
    (["Hourly Bedrock Usage Statistics (Past " ++ toString days ++ " days - " ++ region ++ ")",
      pyRepeat "=" 80,
      "\n=== Hourly Usage Analysis ==="]
     ++ groupTable id keyHour l
     ++ ["\n=== Hourly Region-wise -> Model-wise Analysis ==="]
     ++ groupTable (fun k => k.1 ++ " " ++ k.2.1 ++ " " ++ shortenModelId k.2.2)
          keyHourRegionModel l
     ++ ["\n=== Summary Statistics ==="]
     ++ ["Total Tokens: " ++ toString (totalOverGroups keyHour l)]
     ++ ["\n=== Region Summary ==="]
     ++ groupTable id keyRegion l
     ++ ["\n=== Model Summary ==="]
     ++ groupTable shortenModelId keyModel l
     ++ ["\n=== User Summary ==="]
     ++ groupTable id keyUser l
     ++ ["\n=== Hourly Region -> User -> Model Detailed Summary ==="]
     ++ groupTable (fun k => k.1 ++ " " ++ k.2.1 ++ " " ++ k.2.2.1 ++ " " ++ shortenModelId k.2.2.2)
          (fun r => match keyHour r, r.region, r.userId, r.modelId with
                    | some h, some g, some u, some m => some (h, g, u, m)
                    | _, _, _, _ => none) l
     ++ ["\n=== Hourly Usage Pattern Analysis ==="]
     ++ groupTable (fun h => h ++ ":00 - " ++ h ++ ":59")
          (fun r => r.timestamp.map (fun ts => String.mk ((ts.data.drop 11).take 2))) l)

/-! ### The four public tool operations (src/server.py)

Each tool first calls get_aws_service_boto3_client, which re-raises any
exception from the identity lookup or role assumption (line 134), and it
does so OUTSIDE every try block of the tool bodies; `CredResult.failure e`
models that raised exception, which therefore propagates out of the tool
(`Except.error`). -/

inductive CredResult where
  | ok
  | failure (e : String)
deriving DecidableEq

/-- Exact no-data message returned by both usage-stats tools. -/
def noDataMsg : String := "No usage data found for the specified period."

/-- The `if df is None or df.empty` guard plus the report body of
get_bedrock_daily_usage_stats. -/
def dailyStatsFromRecords (days : Nat) (region : String) :
    Option (List UsageRecord) → String
  | none => noDataMsg
  | some [] => noDataMsg
  | some (r :: rs) => dailyReport days region (r :: rs)

/-- The `if df is None or df.empty` guard plus the report body of
get_bedrock_hourly_usage_stats. -/
def hourlyStatsFromRecords (days : Nat) (region : String) :
    Option (List UsageRecord) → String
  | none => noDataMsg
  | some [] => noDataMsg
  | some (r :: rs) => hourlyReport days region (r :: rs)

/-- Tool get_bedrock_daily_usage_stats. -/
def getBedrockDailyUsageStats (cred : CredResult) (days : Nat) (region : String)
    (prov : ProviderResult) : Except String String :=
  match cred with
  | .failure e => .error e
  | .ok => .ok (dailyStatsFromRecords days region (getBedrockLogs prov))

/-- Tool get_bedrock_hourly_usage_stats. -/
def getBedrockHourlyUsageStats (cred : CredResult) (days : Nat) (region : String)
    (prov : ProviderResult) : Except String String :=
  match cred with
  | .failure e => .error e
  | .ok => .ok (hourlyStatsFromRecords days region (getBedrockLogs prov))

/-! ### Billing breakdown engine (src/server.py, get_detailed_breakdown_by_day
and get_ec2_spend_last_day) -/

/-- One group of the top-level cost query: keys (REGION, SERVICE) with the
UnblendedCost amount and currency unit. -/
structure CostGroup where
  region : String
  service : String
  cost : ℚ
  unit : String
deriving DecidableEq

/-- One `ResultsByTime` entry: a day and its groups. -/
structure DayData where
  date : String
  groups : List CostGroup
deriving DecidableEq

/-- Python dict assignment `d[k] = v`: overwrite in place or append. -/
def upsert (k : String) (v : ℚ) : List (String × ℚ) → List (String × ℚ)
  | [] => [(k, v)]
  | (k', v') :: rest =>
    if k' = k then (k', v) :: rest else (k', v') :: upsert k v rest

/-- `region_services[region][service] = cost` over a defaultdict of
defaultdicts, preserving insertion order. -/
def upsertRegion (region service : String) (cost : ℚ) :
    List (String × List (String × ℚ)) → List (String × List (String × ℚ))
  | [] => [(region, [(service, cost)])]
  | (r', svcs) :: rest =>
    if r' = region then (r', upsert service cost svcs) :: rest
    else (r', svcs) :: upsertRegion region service cost rest

/-- The per-date `region_services` structure built from the day's groups. -/
def buildRegionServices (gs : List CostGroup) : List (String × List (String × ℚ)) :=
  gs.foldl (fun acc g => upsertRegion g.region g.service g.cost acc) []

/-- Ranking relation of `sort_values('Cost', ascending=False)`. -/
def costGe (a b : String × ℚ) : Prop := b.2 ≤ a.2

instance : DecidableRel costGe := fun a b => inferInstanceAs (Decidable (b.2 ≤ a.2))

instance : IsTotal (String × ℚ) costGe := ⟨fun a b => (le_total b.2 a.2).elim Or.inl Or.inr⟩

instance : IsTrans (String × ℚ) costGe := ⟨fun _ _ _ h1 h2 => le_trans h2 h1⟩

/-- `services_df.sort_values('Cost', ascending=False)` (tie order among
equal costs is unspecified by pandas; the model fixes a stable order). -/
def sortServicesDesc (l : List (String × ℚ)) : List (String × ℚ) :=
  List.insertionSort costGe l

/-- `services_df.head(5)` after the descending sort. -/
def topServices (l : List (String × ℚ)) : List (String × ℚ) :=
  (sortServicesDesc l).take 5

/-- `services_df.iloc[5:]['Cost'].sum()`: the remainder total of the
"... and N more services totaling X" line. -/
def otherCost (l : List (String × ℚ)) : ℚ :=
  (((sortServicesDesc l).drop 5).map (fun p => p.2)).sum

/-- Rendering abstraction of `tabulate(top_services.round(2), ...)`. -/
def renderServicesTable (rows : List (String × ℚ)) : String :=
  String.intercalate " | " (rows.map (fun p => p.1 ++ " " ++ toString p.2))

/-- Codepoint comparison underlying Python's `sorted` on strings. -/
def charListLe : List Char → List Char → Bool
  | [], _ => true
  | _ :: _, [] => false
  | x :: xs, y :: ys =>
    if x.val < y.val then true
    else if y.val < x.val then false
    else charListLe xs ys

def pyStrLe (a b : String) : Bool := charListLe a.data b.data

/-- `sorted(region_services.keys())`. -/
def sortRegionNames (l : List String) : List String :=
  List.insertionSort (fun a b => pyStrLe a b = true) l

/-- Outcome of one drill-down query (get_instance_type_breakdown): an
exception with its message, no data (None), or a non-empty cost table.
The drill-down environment maps (date, region, service, dimension_key) to
that outcome. -/
def DrillEnv : Type :=
  String → String → String → String → Except String (Option (List (String × ℚ)))

/-- EC2 instance-type drill-down lines.  The source tests the returned
DataFrame with `if instance_response:` (line 846), and truth-testing a
DataFrame raises ValueError, which the surrounding `except Exception`
turns into the inline note; so a successful drill-down with data still
renders as the note. -/
def ec2Section (drill : DrillEnv) (date region : String)
    (services : List (String × ℚ)) : List String :=
  if services.any (fun p => p.1.startsWith "Amazon Elastic Compute") then
    match drill date region "Amazon Elastic Compute Cloud - Compute" "INSTANCE_TYPE" with
    | .error e => ["  Note: Could not retrieve EC2 instance type breakdown: " ++ e]
    | .ok none => []
    | .ok (some _) =>
      ["  Note: Could not retrieve EC2 instance type breakdown: The truth value of a DataFrame is ambiguous. Use a.empty, a.bool(), a.item(), a.any() or a.all()."]
  else []

/-- Indented table lines of one SageMaker drill-down result. -/
def smTableLines (kind : String) (df : List (String × ℚ)) : List String :=
  ["\n  SageMaker " ++ kind ++ " Type Breakdown:", "  " ++ pyRepeat "-" 38,
   "  " ++ renderServicesTable (sortServicesDesc df)]

/-- SageMaker drill-down lines: instance-type then usage-type queries
inside one try block, so a failure of the second still keeps the first's
output, while a failure of the first skips both. -/
def sagemakerSection (drill : DrillEnv) (date region : String)
    (services : List (String × ℚ)) : List String :=
  if services.any (fun p => p.1 = "Amazon SageMaker") then
    match drill date region "Amazon SageMaker" "INSTANCE_TYPE" with
    | .error e => ["  Note: Could not retrieve SageMaker breakdown: " ++ e]
    | .ok r1 =>
      (match r1 with
       | some df => smTableLines "Instance" df
       | none => [])
      ++ (match drill date region "Amazon SageMaker" "USAGE_TYPE" with
          | .error e => ["  Note: Could not retrieve SageMaker breakdown: " ++ e]
          | .ok (some df) => smTableLines "Usage" df
          | .ok none => [])
  else []

/-- The lines appended for one region of one date (src/server.py lines
811-897): region header, top-5 table, optional remainder line, best-effort
drill-downs. -/
def regionSection (drill : DrillEnv) (date region currency : String)
    (services : List (String × ℚ)) : List String :=
  ["\nRegion: " ++ region, pyRepeat "-" 40, renderServicesTable (topServices services)]
  ++ (if 5 < services.length then
        ["... and " ++ toString (services.length - 5) ++ " more services totaling " ++
          toString (otherCost services) ++ " " ++ currency]
      else [])
  ++ ec2Section drill date region services
  ++ sagemakerSection drill date region services

/-- The lines appended for one day of the lookback window.  `currency` is
whatever unit the last group of the day's group-processing loop left in
scope (the known fragility of the source). -/
def dayLines (drill : DrillEnv) (d : DayData) : List String :=
  ["\nDate: " ++ d.date, pyRepeat "=" 50]
  ++ (if d.groups.isEmpty then ["No data found for this date"]
      else
        let rs := buildRegionServices d.groups
        let currency := ((d.groups.getLast?).map (fun g => g.unit)).getD "USD"
        (sortRegionNames (rs.map (fun p => p.1))).flatMap
          (fun region => regionSection drill d.date region currency
            ((rs.lookup region).getD [])))
  ++ ["\n" ++ pyRepeat "-" 75]

/-- The two header lines appended before the top-level billing call. -/
def breakdownHeader (days : Nat) : List String :=
  ["\nDetailed Cost Breakdown by Region, Service, and Instance Type (" ++
     toString days ++ " days):",
   pyRepeat "-" 75]

/-- The whole output buffer of a successful day-by-day breakdown. -/
def breakdownBuffer (days : Nat) (dayList : List DayData) (drill : DrillEnv) : List String :=
  breakdownHeader days ++ dayList.flatMap (dayLines drill)

/-- Tool get_detailed_breakdown_by_day.  The client is constructed before
the try block, so `CredResult.failure` propagates; a failing top-level
billing call is caught and becomes the returned error text. -/
def getDetailedBreakdownByDay (cred : CredResult) (days : Nat)
    (resp : Except String (List DayData)) (drill : DrillEnv) : Except String String :=
  match cred with
  | .failure e => .error e
  | .ok =>
    match resp with
    | .error e => .ok ("Error retrieving detailed breakdown: " ++ e)
    | .ok dayList => .ok (String.intercalate "\n" (breakdownBuffer days dayList drill))

/-- Tool get_ec2_spend_last_day: returns the raw billing response on
success, and None (after printing the error) when the billing call inside
the try block fails; the client construction is again outside the try. -/
def getEc2SpendLastDay (cred : CredResult)
    (resp : Except String (List DayData)) : Except String (Option (List DayData)) :=
  match cred with
  | .failure e => .error e
  | .ok =>
    match resp with
    | .error _ => .ok none
    | .ok r => .ok (some r)

/-! ### Concrete sample data used by counterexamples and witnesses -/

/-- A fully-populated parsed log message. -/
def evFull : LogMessage :=
  { timestamp := some "2025-04-01T09:00:00Z", region := some "us-east-1",
    modelId := some "anthropic.claude-v2",
    userArn := some "arn:aws:iam::111122223333:user/alice",
    inputTokenCount := .num 1, outputTokenCount := .num 3 }

/-- The record evFull normalizes to. -/
def recFull : UsageRecord :=
  { timestamp := some "2025-04-01T09:00:00Z", region := some "us-east-1",
    modelId := some "anthropic.claude-v2",
    userId := some "arn:aws:iam::111122223333:user/alice",
    inputTokens := some 1, completionTokens := some 3, totalTokens := 4 }

/-- A parsed log message whose input token count is absent. -/
def evMissingInput : LogMessage :=
  { timestamp := some "2025-04-01T10:00:00Z", region := some "us-east-1",
    modelId := some "anthropic.claude-v2",
    userArn := some "arn:aws:iam::111122223333:user/alice",
    inputTokenCount := .absent, outputTokenCount := .num 7 }

/-- The partial record evMissingInput normalizes to. -/
def recMissingInput : UsageRecord :=
  { timestamp := some "2025-04-01T10:00:00Z", region := some "us-east-1",
    modelId := some "anthropic.claude-v2",
    userId := some "arn:aws:iam::111122223333:user/alice",
    inputTokens := none, completionTokens := some 7, totalTokens := 7 }

/-- A parsed log message whose input token count is JSON null. -/
def evNullInput : LogMessage :=
  { timestamp := some "2025-04-01T11:00:00Z", region := some "us-east-1",
    modelId := some "anthropic.claude-v2",
    userArn := some "arn:aws:iam::111122223333:user/alice",
    inputTokenCount := .null, outputTokenCount := .num 2 }

/-- A parsed log message with no region field. -/
def evMissingRegion : LogMessage :=
  { timestamp := some "2025-04-01T10:00:00Z", region := none,
    modelId := some "anthropic.claude-v2",
    userArn := some "arn:aws:iam::111122223333:user/bob",
    inputTokenCount := .num 2, outputTokenCount := .num 3 }

/-- The partial record evMissingRegion normalizes to. -/
def recMissingRegion : UsageRecord :=
  { timestamp := some "2025-04-01T10:00:00Z", region := none,
    modelId := some "anthropic.claude-v2",
    userId := some "arn:aws:iam::111122223333:user/bob",
    inputTokens := some 2, completionTokens := some 3, totalTokens := 5 }

/-- A drill-down environment in which every drill-down query returns no
data. -/
def drillNone : DrillEnv := fun _ _ _ _ => .ok none

/-! ### C1 — normalizer field-dropping policy -/

/-- C1 counterexample: an event whose message merely lacks the
inputTokenCount field is NOT dropped by get_bedrock_logs — it contributes
a partial record whose inputTokens is missing, refuting the claim that
such an event contributes no record to the returned collection. -/
theorem C1_counterexample :
    getBedrockLogs (.ok [.msg evMissingInput]) = some [recMissingInput] ∧
    recMissingInput.inputTokens = none ∧
    recMissingInput.totalTokens = 7 := by
  refine ⟨?_, rfl, rfl⟩
  decide

/-- C1 (amended): an event that fails JSON parsing or lacks the message
envelope is skipped and contributes nothing; an event whose parsed message
merely lacks timestamp/region/modelId/inputTokens/completionTokens is not
dropped — it contributes a record with the missing fields set to null and
totalTokens computed with missing counts as 0 (mkRecord); an event whose
message is not a JSON object, or carries a JSON-null token count, aborts
the whole fetch with the empty no-data result instead of raising; the
normalizer itself never raises (getBedrockLogs is total). -/
theorem C1_amended (m m' : LogMessage) (es : List RawEvent)
    (h1 : m.inputTokenCount ≠ TokenField.null)
    (h2 : m.outputTokenCount ≠ TokenField.null)
    (h3 : m'.inputTokenCount = TokenField.null ∨ m'.outputTokenCount = TokenField.null) :
    collectRecords (.malformed :: es) = collectRecords es ∧
    processEvent (.msg m) = .record (mkRecord m) ∧
    collectRecords (.msg m' :: es) = none ∧
    collectRecords (.nonObject :: es) = none := by
  refine ⟨rfl, ?_, ?_, rfl⟩
  · simp only [processEvent]
    rw [if_neg]
    rintro (h | h)
    · exact h1 h
    · exact h2 h
  · simp only [collectRecords, processEvent]
    rw [if_pos h3]

/-- C1 witness: the amended statement at concrete inputs. -/
theorem C1_amended_witness :
    evMissingInput.inputTokenCount ≠ TokenField.null ∧
    evMissingInput.outputTokenCount ≠ TokenField.null ∧
    (evNullInput.inputTokenCount = TokenField.null ∨
      evNullInput.outputTokenCount = TokenField.null) ∧
    processEvent (.msg evMissingInput) = .record (mkRecord evMissingInput) ∧
    collectRecords [.msg evNullInput] = none :=
  ⟨by decide, by decide, by decide,
   (C1_amended evMissingInput evNullInput [] (by decide) (by decide) (by decide)).2.1,
   (C1_amended evMissingInput evNullInput [] (by decide) (by decide) (by decide)).2.2.1⟩

/-! ### C2 — exception-totality of the four public tools -/

/-- True exactly for a non-exceptional result. -/
def exceptOk {ε α : Type} : Except ε α → Bool
  | .ok _ => true
  | .error _ => false

/-- C2 counterexample: with a failing credential resolution (the sts
identity lookup or role assumption raising, re-raised by
get_aws_service_boto3_client, which every tool calls outside its try
blocks), all four public tools propagate the exception past their
boundary instead of returning a textual explanation. -/
theorem C2_counterexample :
    getBedrockDailyUsageStats (.failure "AccessDenied") 7 "us-east-1" (.ok []) =
      .error "AccessDenied" ∧
    getBedrockHourlyUsageStats (.failure "AccessDenied") 7 "us-east-1" (.ok []) =
      .error "AccessDenied" ∧
    getEc2SpendLastDay (.failure "AccessDenied") (.ok []) = .error "AccessDenied" ∧
    getDetailedBreakdownByDay (.failure "AccessDenied") 7 (.ok []) drillNone =
      .error "AccessDenied" :=
  ⟨rfl, rfl, rfl, rfl⟩

/-- C2 (amended): once the service client has been constructed, every
internal failure of the billing/log retrieval is caught at the operation
boundary and converted into an ordinary returned value (a textual report
or message — except get_ec2_spend_last_day, which returns None rather
than a textual explanation); but a credential-resolution failure occurs
before each tool's try block and propagates uncaught past all four tool
boundaries. -/
theorem C2_amended (days : Nat) (region : String) (prov : ProviderResult)
    (resp : Except String (List DayData)) (drill : DrillEnv) (e e' : String) :
    exceptOk (getBedrockDailyUsageStats .ok days region prov) = true ∧
    exceptOk (getBedrockHourlyUsageStats .ok days region prov) = true ∧
    exceptOk (getEc2SpendLastDay .ok resp) = true ∧
    exceptOk (getDetailedBreakdownByDay .ok days resp drill) = true ∧
    getBedrockDailyUsageStats (.failure e) days region prov = .error e ∧
    getBedrockHourlyUsageStats (.failure e) days region prov = .error e ∧
    getEc2SpendLastDay (.failure e) resp = .error e ∧
    getDetailedBreakdownByDay (.failure e) days resp drill = .error e ∧
    getEc2SpendLastDay .ok (.error e') = .ok none := by
  refine ⟨rfl, rfl, ?_, ?_, rfl, rfl, rfl, rfl, rfl⟩
  · cases resp <;> rfl
  · cases resp <;> rfl

/-! ### C3 — grouping-invariant totals -/

/-- C3 counterexample: a normalized record set containing a record with a
missing region (reachable from get_bedrock_logs, see evMissingRegion) has
a detailed (date, region, modelId) grouping total of 4 but a modelId-only
grouping total of 9: pandas groupby drops rows whose group key contains a
missing value, so the groupings do not partition the records and the
coarse and detailed totals disagree. -/
theorem C3_counterexample :
    getBedrockLogs (.ok [.msg evFull, .msg evMissingRegion]) =
      some [recFull, recMissingRegion] ∧
    totalOverGroups keyDateRegionModel [recFull, recMissingRegion] = 4 ∧
    totalOverGroups keyModel [recFull, recMissingRegion] = 9 ∧
    totalOverGroups keyDateRegionModel [recFull, recMissingRegion] ≠
      totalOverGroups keyModel [recFull, recMissingRegion] := by
  refine ⟨by decide, by decide, by decide, by decide⟩

/-- C3 (amended): for every non-empty record set in which each record has
its timestamp, region and modelId defined, the groupings do partition the
records, and the sum of totalTokens over the groups of the detailed
(date, region, modelId) grouping, of the region-only grouping and of the
modelId-only grouping all equal the plain sum of totalTokens over the
records — so any two of them agree exactly. -/
theorem C3_amended (l : List UsageRecord) (_hne : l ≠ [])
    (h : ∀ r ∈ l, r.timestamp.isSome ∧ r.region.isSome ∧ r.modelId.isSome) :
    totalOverGroups keyDateRegionModel l = (l.map (fun r => r.totalTokens)).sum ∧
    totalOverGroups keyRegion l = (l.map (fun r => r.totalTokens)).sum ∧
    totalOverGroups keyModel l = (l.map (fun r => r.totalTokens)).sum := by
  refine ⟨?_, ?_, ?_⟩
  · apply totalOverGroups_eq_sum
    intro r hr
    rcases h r hr with ⟨ht, hg, hm⟩
    rcases Option.isSome_iff_exists.mp ht with ⟨t, ht'⟩
    rcases Option.isSome_iff_exists.mp hg with ⟨g, hg'⟩
    rcases Option.isSome_iff_exists.mp hm with ⟨m, hm'⟩
    simp [keyDateRegionModel, ht', hg', hm']
  · apply totalOverGroups_eq_sum
    intro r hr
    exact (h r hr).2.1
  · apply totalOverGroups_eq_sum
    intro r hr
    exact (h r hr).2.2

/-- C3 witness: the amended statement at a concrete two-record set. -/
theorem C3_amended_witness :
    totalOverGroups keyDateRegionModel [recFull, recFull] =
      ([recFull, recFull].map (fun r => r.totalTokens)).sum ∧
    totalOverGroups keyRegion [recFull, recFull] =
      ([recFull, recFull].map (fun r => r.totalTokens)).sum ∧
    totalOverGroups keyModel [recFull, recFull] =
      ([recFull, recFull].map (fun r => r.totalTokens)).sum :=
  C3_amended [recFull, recFull] (by decide) (by decide)

/-! ### C4 — not-found versus transport failure in the log fetch -/

/-- C4 counterexample: a transport/API failure during log retrieval does
NOT propagate to the caller — get_bedrock_logs catches every exception and
returns None, exactly the value it returns for the log-group-not-found
condition, so the two conditions are indistinguishable in the returned
outcome. -/
theorem C4_counterexample :
    getBedrockLogs (.transportError "connection reset") = none ∧
    getBedrockLogs .notFound = none ∧
    getBedrockLogs (.transportError "connection reset") = getBedrockLogs .notFound :=
  ⟨rfl, rfl, rfl⟩

/-- C4 (amended): a log-group/stream-not-found condition yields the empty
no-data result (None) with a diagnostic note, and any other transport/API
failure is also caught inside get_bedrock_logs and yields the same None
result; the two conditions differ only in the diagnostic line printed to
stdout, never in the value returned to the caller, and neither condition
propagates an exception. -/
theorem C4_amended (e : String) :
    getBedrockLogs .notFound = none ∧
    getBedrockLogs (.transportError e) = none ∧
    fetchDiagnostic "BedrockModelInvocationLogGroup" .notFound ≠
      fetchDiagnostic "BedrockModelInvocationLogGroup" (.transportError "boom") :=
  ⟨rfl, rfl, by decide⟩

/-! ### C5 — top-5 plus remainder reconciliation -/

/-- C5 (confirmed): in get_detailed_breakdown_by_day, for a (date, region)
service list with more than 5 services, the displayed services are the 5
first entries of the cost-descending sort (so 5 services, in descending
cost order, each costing at least as much as every undisplayed one), and
the sum of the 5 displayed costs plus the stated remainder total otherCost
equals the full cost summed over all services of that (date, region). -/
theorem C5_top5_reconciliation (l : List (String × ℚ)) (h : 5 < l.length) :
    ((topServices l).map (fun p => p.2)).sum + otherCost l =
      (l.map (fun p => p.2)).sum ∧
    (topServices l).length = 5 ∧
    List.Sorted costGe (topServices l) ∧
    ∀ a ∈ topServices l, ∀ b ∈ (sortServicesDesc l).drop 5, costGe a b := by
  have hperm : (sortServicesDesc l).Perm l := List.perm_insertionSort costGe l
  have hsorted : List.Sorted costGe (sortServicesDesc l) :=
    List.sorted_insertionSort costGe l
  refine ⟨?_, ?_, ?_, ?_⟩
  · have hsplit : (((sortServicesDesc l).take 5).map (fun p => p.2)) ++
        (((sortServicesDesc l).drop 5).map (fun p => p.2)) =
        (sortServicesDesc l).map (fun p => p.2) := by
      rw [← List.map_append, List.take_append_drop]
    calc ((topServices l).map (fun p => p.2)).sum + otherCost l
        = ((sortServicesDesc l).map (fun p => p.2)).sum := by
          rw [topServices, otherCost, ← List.sum_append, hsplit]
      _ = (l.map (fun p => p.2)).sum := (hperm.map (fun p => p.2)).sum_eq
  · rw [topServices, List.length_take, hperm.length_eq]
    omega
  · exact List.Pairwise.sublist (List.take_sublist 5 _) hsorted
  · have hcut := hsorted
    rw [← List.take_append_drop 5 (sortServicesDesc l)] at hcut
    exact (List.pairwise_append.mp hcut).2.2

/-- A concrete six-service region used by the C5 witness. -/
def sixServices : List (String × ℚ) :=
  [("AWS Lambda", 1), ("Amazon SageMaker", 6), ("Amazon S3", 3),
   ("AWS Key Management Service", 2), ("Amazon Bedrock", 5),
   ("Amazon Elastic Compute Cloud - Compute", 4)]

/-- C5 witness: the reconciliation at the concrete six-service region. -/
theorem C5_top5_reconciliation_witness :
    5 < sixServices.length ∧
    ((topServices sixServices).map (fun p => p.2)).sum + otherCost sixServices =
      (sixServices.map (fun p => p.2)).sum ∧
    (topServices sixServices).length = 5 :=
  ⟨by decide, (C5_top5_reconciliation sixServices (by decide)).1,
   (C5_top5_reconciliation sixServices (by decide)).2.1⟩

/-! ### C6 — credential resolver self-case -/

/-- C6 counterexample: an EMPTY target account id is `not None` in the
source's guard, so with caller account 123456789012 and target "" the
resolver does attempt role assumption (building a malformed role ARN)
rather than constructing the client directly — refuting the claim that an
empty target account id never triggers role assumption. -/
theorem C6_counterexample :
    getAwsServiceBoto3Client "ce" (some "") "us-east-1" "BedrockCrossAccount2"
        "123456789012" =
      .assumed "ce" "arn:aws:iam:::role/BedrockCrossAccount2" "us-east-1" ∧
    getAwsServiceBoto3Client "ce" (some "") "us-east-1" "BedrockCrossAccount2"
        "123456789012" ≠
      .direct "ce" "us-east-1" := by
  refine ⟨by decide, by decide⟩

/-- C6 (amended): the resolver constructs the client directly with the
ambient identity exactly when the target account id is absent (None) or
equals the caller's own resolved account; whenever a target account id is
present (including the empty string) and differs from the caller's
account, it assumes the configured role in that account. -/
theorem C6_amended (service : String) (aid : Option String)
    (region role this' : String) :
    (getAwsServiceBoto3Client service aid region role this' =
        .direct service region ↔ (aid = none ∨ aid = some this')) ∧
    (∀ a, aid = some a → this' ≠ a →
      getAwsServiceBoto3Client service aid region role this' =
        .assumed service ("arn:aws:iam::" ++ a ++ ":role/" ++ role) region) := by
  constructor
  · cases aid with
    | none => simp [getAwsServiceBoto3Client]
    | some a =>
      by_cases hne : this' ≠ a
      · simp only [getAwsServiceBoto3Client, if_pos hne]
        constructor
        · intro h
          cases h
        · rintro (h | h)
          · cases h
          · exact absurd (Option.some.injEq a this' ▸ h).symm hne
      · have heq : this' = a := not_not.mp hne
        simp [getAwsServiceBoto3Client, hne, heq]
  · intro a ha hne
    subst ha
    simp only [getAwsServiceBoto3Client, if_pos hne]

/-- C6 witness: the amended statement's role-assumption branch at concrete
accounts. -/
theorem C6_amended_witness :
    (some "222233334444" : Option String) = some "222233334444" ∧
    ("111122223333" : String) ≠ "222233334444" ∧
    getAwsServiceBoto3Client "logs" (some "222233334444") "us-west-2"
        "BedrockCrossAccount2" "111122223333" =
      .assumed "logs" "arn:aws:iam::222233334444:role/BedrockCrossAccount2" "us-west-2" :=
  ⟨rfl, by decide,
   (C6_amended "logs" (some "222233334444") "us-west-2" "BedrockCrossAccount2"
      "111122223333").2 "222233334444" rfl (by decide)⟩

/-! ### C7 — empty record collection short-circuits aggregation -/

/-- C7 (confirmed): when the normalized record collection is empty or
absent, both aggregation tools perform no grouping and return exactly the
fixed no-data message as their entire output; in particular whenever
get_bedrock_logs yields no data, the daily and hourly tool results are
exactly that message. -/
theorem C7_no_data_message (days : Nat) (region : String)
    (o : Option (List UsageRecord)) (h : o = none ∨ o = some [])
    (prov : ProviderResult) (hp : getBedrockLogs prov = none) :
    dailyStatsFromRecords days region o = noDataMsg ∧
    hourlyStatsFromRecords days region o = noDataMsg ∧
    getBedrockDailyUsageStats .ok days region prov = .ok noDataMsg ∧
    getBedrockHourlyUsageStats .ok days region prov = .ok noDataMsg := by
  have h3 : getBedrockDailyUsageStats .ok days region prov = .ok noDataMsg := by
    simp only [getBedrockDailyUsageStats, hp]
    rfl
  have h4 : getBedrockHourlyUsageStats .ok days region prov = .ok noDataMsg := by
    simp only [getBedrockHourlyUsageStats, hp]
    rfl
  rcases h with h | h <;> subst h <;> exact ⟨rfl, rfl, h3, h4⟩

/-- C7 witness: the no-data message at a concrete empty fetch. -/
theorem C7_no_data_message_witness :
    (none = (none : Option (List UsageRecord)) ∨
      (none : Option (List UsageRecord)) = some []) ∧
    getBedrockLogs .notFound = none ∧
    dailyStatsFromRecords 7 "us-east-1" none = noDataMsg ∧
    getBedrockDailyUsageStats .ok 7 "us-east-1" .notFound = .ok noDataMsg :=
  ⟨Or.inl rfl, rfl,
   (C7_no_data_message 7 "us-east-1" none (Or.inl rfl) .notFound rfl).1,
   (C7_no_data_message 7 "us-east-1" none (Or.inl rfl) .notFound rfl).2.2.1⟩

/-! ### C8 — model-identifier shortening -/

/-- C8 (confirmed): the shortening lambda returns the substring after the
last '.' when the identifier contains a '.', otherwise the substring after
the last '/', and an identifier containing neither '.' nor '/' (in
particular an already-shortened one) is returned unchanged. -/
theorem C8_shorten_spec (s : List Char) :
    ('.' ∈ s → shortenChars s = suffixAfterLast '.' s) ∧
    ('.' ∉ s → shortenChars s = suffixAfterLast '/' s) ∧
    ('.' ∉ s → '/' ∉ s → shortenChars s = s) := by
  by_cases hd : '.' ∈ s
  · exact ⟨fun _ => by simp [shortenChars, hd, lastOfSplit_eq_suffixAfterLast],
      fun h => absurd hd h, fun h => absurd hd h⟩
  · refine ⟨fun h => absurd h hd, fun _ => ?_, fun _ hs => ?_⟩
    · simp [shortenChars, hd, lastOfSplit_eq_suffixAfterLast]
    · simp only [shortenChars, if_neg hd, lastOfSplit_eq_suffixAfterLast]
      exact suffixAfterLast_of_not_mem '/' s hs

/-- C8 witness: shortening at concrete identifiers — a dotted id keeps its
last component, and an already-shortened id is a fixed point. -/
theorem C8_shorten_spec_witness :
    '.' ∈ "anthropic.claude-v2".data ∧
    shortenChars "anthropic.claude-v2".data = suffixAfterLast '.' "anthropic.claude-v2".data ∧
    '.' ∉ "claude-v2".data ∧ '/' ∉ "claude-v2".data ∧
    shortenChars "claude-v2".data = "claude-v2".data :=
  ⟨by decide, (C8_shorten_spec "anthropic.claude-v2".data).1 (by decide),
   by decide, by decide,
   (C8_shorten_spec "claude-v2".data).2.2 (by decide) (by decide)⟩

/-! ### C9 — totalTokens invariant of emitted records -/

lemma mkRecord_totalTokens (m : LogMessage) :
    (mkRecord m).totalTokens =
      (mkRecord m).inputTokens.getD 0 + (mkRecord m).completionTokens.getD 0 := by
  cases hi : m.inputTokenCount <;> cases ho : m.outputTokenCount <;>
    simp [mkRecord, tokenOpt, tokenGetD, hi, ho]

lemma collectRecords_sound :
    ∀ (es : List RawEvent) (rs : List UsageRecord), collectRecords es = some rs →
      ∀ r ∈ rs, r.totalTokens = r.inputTokens.getD 0 + r.completionTokens.getD 0 := by
  intro es
  induction es with
  | nil =>
    intro rs h r hr
    simp only [collectRecords, Option.some.injEq] at h
    subst h
    cases hr
  | cons e es ih =>
    intro rs h r hr
    cases e with
    | malformed => exact ih rs h r hr
    | nonObject => simp [collectRecords, processEvent] at h
    | msg m =>
      by_cases hnull : m.inputTokenCount = TokenField.null ∨
          m.outputTokenCount = TokenField.null
      · simp only [collectRecords, processEvent, if_pos hnull] at h
        exact Option.noConfusion h
      · simp only [collectRecords, processEvent, if_neg hnull] at h
        cases hce : collectRecords es with
        | none => rw [hce] at h; cases h
        | some rs' =>
          rw [hce] at h
          simp only [Option.map_some', Option.some.injEq] at h
          subst h
          rcases List.mem_cons.mp hr with hr' | hr'
          · rw [hr']
            exact mkRecord_totalTokens m
          · exact ih rs' hce r hr'

/-- C9 (confirmed): every record the normalizer emits satisfies
totalTokens = (inputTokens if present else 0) + (completionTokens if
present else 0); totalTokens is a defined natural number even when the
record's inputTokens or completionTokens field is missing. -/
theorem C9_totalTokens_invariant (p : ProviderResult) (rs : List UsageRecord)
    (h : getBedrockLogs p = some rs) :
    ∀ r ∈ rs, r.totalTokens = r.inputTokens.getD 0 + r.completionTokens.getD 0 := by
  cases p with
  | notFound => cases h
  | transportError e => cases h
  | ok events =>
    cases hce : collectRecords events with
    | none =>
      simp only [getBedrockLogs, hce] at h
      exact Option.noConfusion h
    | some rs' =>
      cases rs' with
      | nil =>
        simp only [getBedrockLogs, hce] at h
        exact Option.noConfusion h
      | cons r' rest =>
        simp only [getBedrockLogs, hce, Option.some.injEq] at h
        subst h
        exact collectRecords_sound events (r' :: rest) hce

/-- C9 witness: the invariant on the partial record emitted for an event
missing its inputTokenCount. -/
theorem C9_totalTokens_invariant_witness :
    getBedrockLogs (.ok [.msg evMissingInput]) = some [recMissingInput] ∧
    recMissingInput.totalTokens =
      recMissingInput.inputTokens.getD 0 + recMissingInput.completionTokens.getD 0 :=
  ⟨by decide,
   C9_totalTokens_invariant (.ok [.msg evMissingInput]) [recMissingInput]
     (by decide) recMissingInput (List.mem_singleton.mpr rfl)⟩

/-! ### C10 — an empty day never truncates the breakdown report -/

/-- C10 (confirmed): in get_detailed_breakdown_by_day, a day whose billing
result has no groups contributes exactly its date header, the separator,
the line "No data found for this date" and the trailing divider, and the
buffer for any window around it is the concatenation of the earlier days'
lines, that day's lines and the later days' lines — so processing of all
subsequent days continues unaffected. -/
theorem C10_empty_day_continues (drill : DrillEnv) (days : Nat)
    (ds1 ds2 : List DayData) (d : DayData) (h : d.groups = []) :
    dayLines drill d =
      ["\nDate: " ++ d.date, pyRepeat "=" 50, "No data found for this date",
       "\n" ++ pyRepeat "-" 75] ∧
    breakdownBuffer days (ds1 ++ d :: ds2) drill =
      breakdownHeader days ++ ds1.flatMap (dayLines drill) ++ dayLines drill d ++
        ds2.flatMap (dayLines drill) := by
  constructor
  · simp [dayLines, h]
  · simp [breakdownBuffer, List.flatMap_append, List.append_assoc]

/-- C10 witness: the empty-day lines and window concatenation at a
concrete one-day window. -/
theorem C10_empty_day_continues_witness :
    DayData.groups ⟨"2025-04-01", []⟩ = [] ∧
    dayLines drillNone ⟨"2025-04-01", []⟩ =
      ["\nDate: " ++ "2025-04-01", pyRepeat "=" 50, "No data found for this date",
       "\n" ++ pyRepeat "-" 75] ∧
    breakdownBuffer 7 ([] ++ ⟨"2025-04-01", []⟩ :: [⟨"2025-04-02", []⟩]) drillNone =
      breakdownHeader 7 ++ List.flatMap [] (dayLines drillNone) ++
        dayLines drillNone ⟨"2025-04-01", []⟩ ++
        List.flatMap [⟨"2025-04-02", []⟩] (dayLines drillNone) :=
  ⟨rfl,
   (C10_empty_day_continues drillNone 7 [] [⟨"2025-04-02", []⟩] ⟨"2025-04-01", []⟩ rfl).1,
   (C10_empty_day_continues drillNone 7 [] [⟨"2025-04-02", []⟩] ⟨"2025-04-01", []⟩ rfl).2⟩

end AwsCostExplorer
